import Mathlib

/-!
Verification of the website-optimizer job-queue backend (`src/server.js`).

The source bundles three near-identical server variants:
* a JSON-file-backed variant (in-memory `Map` flushed to disk) that sends the
  completion email server-side,
* a Google-Sheets-backed variant (with an in-memory fallback `Map` when no
  sheet is configured) that sends the completion email server-side,
* a JSON-file-backed variant that delegates the completion email to the
  external worker.

The file/in-memory store is embedded as an association list of `Job` records
keyed by `id` (the JSON file is a serialization of that map, so the map is the
observable state).  The spreadsheet store is embedded as a list of rows of
cells (columns A..J = indices 0..9).  HTTP routing is embedded as Express's
first-match-wins scan over the registration-ordered route table.
-/

namespace WebsiteOptimizer

/-- Lighthouse score record `{performance, accessibility, bestPractices, seo}`.
Scores are integers 0-100 when present (spec §3); a missing category is `none`. -/
structure Scores where
  performance : Option Int
  accessibility : Option Int
  bestPractices : Option Int
  seo : Option Int
deriving DecidableEq, Repr

/-- A job record, exactly the object literal built in `createJob`.
Statuses are the raw strings "submitted" / "processing" / "completed" as in the
JavaScript source; timestamps are opaque ISO strings. -/
structure Job where
  id : String
  url : String
  email : String
  status : String
  created_at : String
  completed_at : Option String
  lighthouse_before : Option Scores
  lighthouse_after : Option Scores
  netlify_url : Option String
  notes : Option String
deriving DecidableEq, Repr

/-- The in-memory `Map` (`memoryJobs`), as an insertion-ordered association list.
Keys (job ids) are unique in every reachable state. -/
abbrev Store := List Job

/-- JS `Map.get(id)`, and the `getJobById` store function: first entry with this id. -/
def getJobById (id : String) (s : Store) : Option Job :=
  s.find? (fun j => j.id == id)

/-- The `getPendingJobs` store function: `[...map.values()].filter(j => j.status === 'submitted')`. -/
def getPendingJobs (s : Store) : List Job :=
  s.filter (fun j => j.status == "submitted")

/-- The `getAllJobs` store function. -/
def getAllJobs (s : Store) : List Job := s

/-- The common shape of the mutating store functions: `const job = map.get(id); if (job) ...mutate job`.
In the association-list embedding, mutating the record held under one key is a
map that rewrites the entries carrying that id and leaves every other entry alone. -/
def memUpdate (id : String) (f : Job → Job) (s : Store) : Store :=
  s.map (fun j => if j.id == id then f j else j)

/-- The `updateJobStatus` store function: sets `job.status` unconditionally if the id is known. -/
def updateJobStatus (id status : String) (s : Store) : Store :=
  memUpdate id (fun j => { j with status := status }) s

/-- The `saveLighthouseBefore` store function.  The route passes `req.body.scores`
through unchecked, so the stored value is whatever the body held (possibly absent). -/
def saveLighthouseBefore (id : String) (scores : Option Scores) (s : Store) : Store :=
  memUpdate id (fun j => { j with lighthouse_before := scores }) s

/-- The `saveLighthouseAfter` store function. -/
def saveLighthouseAfter (id : String) (scores : Option Scores) (s : Store) : Store :=
  memUpdate id (fun j => { j with lighthouse_after := scores }) s

/-- The `completeJob` store function (file/in-memory variants): sets status,
completion timestamp, netlify url and notes on the stored record. -/
def completeJob (id netlifyUrl : String) (notes : Option String) (now : String) (s : Store) : Store :=
  memUpdate id (fun j =>
    { j with status := "completed", completed_at := some now,
             netlify_url := some netlifyUrl, notes := notes }) s

/-- JS `Map.set(id, job)`: replaces in place when the key exists, appends otherwise. -/
def mapSet (id : String) (job : Job) (s : Store) : Store :=
  if s.any (fun k => k.id == id) then memUpdate id (fun _ => job) s else s ++ [job]

/-- The `createJob` store function: builds the fresh record and `Map.set`s it.
`newId` is the uuid drawn by `uuidv4()` and `now` the `new Date().toISOString()` value. -/
def createJob (newId now url email : String) (s : Store) : Job × Store :=
  let job : Job :=
    { id := newId, url := url, email := email, status := "submitted",
      created_at := now, completed_at := none, lighthouse_before := none,
      lighthouse_after := none, netlify_url := none, notes := none }
  (job, mapSet job.id job s)

/-- JS truthiness of a numeric field: `undefined` and `0` are falsy. -/
def jsTruthyNum : Option Int → Bool
  | none => false
  | some n => n != 0

/-- JS truthiness of an optional string: `undefined` and the empty string are falsy. -/
def jsTruthyStr : Option String → Bool
  | none => false
  | some s => s != ""

/-- The improvement delta computed in `sendCompletionEmail`:
`after.performance && before.performance ? Math.round(after.performance - before.performance) : null`,
with `before`/`after` defaulting to `{}` when the stored field is null.
Scores are integers (spec §3), and `Math.round` on an integer-valued number is
that integer, so the rounding is the identity here. -/
def improvement (lighthouseBefore lighthouseAfter : Option Scores) : Option Int :=
  let before := lighthouseBefore.getD ⟨none, none, none, none⟩
  let after := lighthouseAfter.getD ⟨none, none, none, none⟩
  if jsTruthyNum after.performance && jsTruthyNum before.performance then
    some (after.performance.getD 0 - before.performance.getD 0)
  else none

/-- JSON.stringify of a score record, as stored into spreadsheet score cells.
Fields that are `undefined` are omitted by JSON.stringify. -/
def stringifyScores (sc : Scores) : String :=
  let fields := [("performance", sc.performance), ("accessibility", sc.accessibility),
                 ("bestPractices", sc.bestPractices), ("seo", sc.seo)]
  let parts := fields.filterMap (fun p => p.2.map (fun n => "\"" ++ p.1 ++ "\":" ++ toString n))
  "\x7b" ++ String.intercalate "," parts ++ "\x7d"

/-- One spreadsheet cell.  Sheets cells are strings; `empty` is a cell that was
never written (or skipped by a `null` in an update), `str` is plain text
(ids, urls, timestamps, notes), and `json` is the JSON.stringify rendering of a
score record, tracked symbolically so it can be re-parsed. -/
inductive Cell where
  | empty : Cell
  | str : String → Cell
  | json : Scores → Cell
deriving DecidableEq, Repr

/-- The string the Sheets API hands back for a cell. -/
def Cell.text : Cell → String
  | .empty => ""
  | .str s => s
  | .json sc => stringifyScores sc

/-- JS `cell || null`: the empty string is falsy. -/
def Cell.orNull (c : Cell) : Option String :=
  if c.text == "" then none else some c.text

/-- JS `cell ? JSON.parse(cell) : null` for the two score columns.
An `empty` cell is falsy, so no parse is attempted.  A `json` cell parses back
to its score record.  The plain strings this system ever writes into a score
column by mistake (a netlify URL) are not valid JSON documents, so JSON.parse
throws on a `str` cell; the thrown error is the `Except.error` case. -/
def parseScoresCell : Cell → Except Unit (Option Scores)
  | .empty => .ok none
  | .str s => if s == "" then .ok none else .error ()
  | .json sc => .ok (some sc)

/-- A spreadsheet row, columns A..J at indices 0..9:
id, url, email, status, created_at, completed_at, lighthouse_before,
lighthouse_after, netlify_url, notes (the header row written by `initSheet`). -/
abbrev Row := List Cell

/-- The data rows of the `Jobs` sheet (range A2:J). -/
abbrev Sheet := List Row

/-- JS `Array.findIndex` (−1 modelled as `none`), used on the id column `Jobs!A2:A`. -/
def findRowIdx (p : Row → Bool) : Sheet → Option Nat
  | [] => none
  | r :: rest => if p r then some 0 else (findRowIdx p rest).map (· + 1)

/-- The row-id lookup every spreadsheet mutation performs:
`result.values.findIndex(r => r[0] === id)`. -/
def sheetFindIdx (id : String) (sheet : Sheet) : Option Nat :=
  findRowIdx (fun r => (r.getD 0 .empty).text == id) sheet

/-- The common shape of the spreadsheet mutations: find the row index for the id
(returning untouched when `findIndex` gives −1), then PUT a new version of that row. -/
def sheetModifyRow (id : String) (f : Row → Row) (sheet : Sheet) : Sheet :=
  match sheetFindIdx id sheet with
  | none => sheet
  | some i => sheet.set i (f (sheet.getD i []))

/-- A Sheets `values.update` (PUT) of a horizontal range starting at column
`start`: values are written left to right; a JSON `null` in the value list
skips its cell, leaving the stored value unchanged (Sheets API update
semantics: empty values are skipped). -/
def putCells (r : Row) (start : Nat) (vals : List (Option Cell)) : Row :=
  match vals with
  | [] => r
  | v :: vs => putCells (match v with | none => r | some c => r.set start c) (start + 1) vs

/-- Spreadsheet `updateJobStatus`: PUT `Jobs!D(row)` with `[[status]]` (column D = index 3). -/
def sheetUpdateJobStatus (id status : String) (sheet : Sheet) : Sheet :=
  sheetModifyRow id (fun r => r.set 3 (.str status)) sheet

/-- Spreadsheet `saveLighthouseBefore`: PUT `Jobs!G(row)` with `[[JSON.stringify(scores)]]`
(column G = index 6). -/
def sheetSaveLighthouseBefore (id : String) (scores : Scores) (sheet : Sheet) : Sheet :=
  sheetModifyRow id (fun r => r.set 6 (.json scores)) sheet

/-- Spreadsheet `saveLighthouseAfter`: PUT `Jobs!H(row)` with `[[JSON.stringify(scores)]]`
(column H = index 7). -/
def sheetSaveLighthouseAfter (id : String) (scores : Scores) (sheet : Sheet) : Sheet :=
  sheetModifyRow id (fun r => r.set 7 (.json scores)) sheet

/-- Spreadsheet `completeJob`: PUT `Jobs!D(row):J(row)` with
`[['completed', new Date().toISOString(), null, null, netlifyUrl, notes]]` —
six values written from column D onward (a `notes` of `undefined` is serialized
as `null` by JSON.stringify and therefore also skipped). -/
def sheetCompleteJob (id netlifyUrl : String) (notes : Option String) (now : String)
    (sheet : Sheet) : Sheet :=
  sheetModifyRow id (fun r => putCells r 3
    [some (.str "completed"), some (.str now), none, none,
     some (.str netlifyUrl), notes.map Cell.str]) sheet

/-- Spreadsheet `createJob`: append `[[id, url, email, status, created_at, null, null, null, null, null]]`
to `Jobs!A:J`; the trailing nulls leave empty cells. -/
def sheetCreateJob (newId now url email : String) (sheet : Sheet) : Job × Sheet :=
  let job : Job :=
    { id := newId, url := url, email := email, status := "submitted",
      created_at := now, completed_at := none, lighthouse_before := none,
      lighthouse_after := none, netlify_url := none, notes := none }
  (job, sheet ++ [[Cell.str newId, Cell.str url, Cell.str email, Cell.str "submitted",
                   Cell.str now, Cell.empty, Cell.empty, Cell.empty, Cell.empty, Cell.empty]])

/-- The row-to-object mapping used by the spreadsheet `getJobById` / `getAllJobs` /
`getPendingJobs` readers.  Columns A-E are read directly (they hold plain strings in
every reachable state; the `Cell.text` coercion stands for that read), F, I and J
through `|| null`, and G, H through `cell ? JSON.parse(cell) : null`, which can throw. -/
def rowToJob (r : Row) : Except Unit Job := do
  let lb ← parseScoresCell (r.getD 6 .empty)
  let la ← parseScoresCell (r.getD 7 .empty)
  Except.ok
    { id := (r.getD 0 .empty).text,
      url := (r.getD 1 .empty).text,
      email := (r.getD 2 .empty).text,
      status := (r.getD 3 .empty).text,
      created_at := (r.getD 4 .empty).text,
      completed_at := (r.getD 5 .empty).orNull,
      lighthouse_before := lb,
      lighthouse_after := la,
      netlify_url := (r.getD 8 .empty).orNull,
      notes := (r.getD 9 .empty).orNull }

/-- Spreadsheet `getJobById`: find the row (`return null` when absent), build the
object; a thrown JSON.parse error is caught by the surrounding try/catch, and
control falls through to the in-memory fallback `return memoryJobs.get(id) || null`. -/
def sheetGetJobById (id : String) (sheet : Sheet) (mem : Store) : Option Job :=
  match sheet.find? (fun r => (r.getD 0 .empty).text == id) with
  | none => none
  | some r =>
    match rowToJob r with
    | .ok j => some j
    | .error _ => getJobById id mem

/-- HTTP method, for the routes this server registers. -/
inductive Method where
  | GET : Method
  | POST : Method
deriving DecidableEq, Repr

/-- One segment of an Express route pattern: a literal, or a `:name` parameter. -/
inductive Seg where
  | lit : String → Seg
  | param : Seg
deriving DecidableEq, Repr

/-- Express segment matching: a parameter segment matches any one path segment. -/
def segMatches : Seg → String → Bool
  | .lit s, t => s == t
  | .param, _ => true

/-- Express path matching: same length, segmentwise match. -/
def pathMatches : List Seg → List String → Bool
  | [], [] => true
  | p :: ps, t :: ts => segMatches p t && pathMatches ps ts
  | _, _ => false

/-- The handlers, in registration order. -/
inductive RouteTag where
  | createJobR | getJobR | pendingR | allR | lighthouseBeforeR | lighthouseAfterR
  | completeR | healthR
deriving DecidableEq, Repr

/-- The route table exactly in the order the source registers routes:
`POST /api/jobs`, `GET /api/jobs/:id`, `GET /api/jobs/pending`, `GET /api/jobs/all`,
`POST /api/jobs/:id/lighthouse-before`, `POST /api/jobs/:id/lighthouse-after`,
`POST /api/jobs/:id/complete`, `GET /health`. -/
def routeTable : List (Method × List Seg × RouteTag) :=
  [ (.POST, [.lit "api", .lit "jobs"], .createJobR),
    (.GET,  [.lit "api", .lit "jobs", .param], .getJobR),
    (.GET,  [.lit "api", .lit "jobs", .lit "pending"], .pendingR),
    (.GET,  [.lit "api", .lit "jobs", .lit "all"], .allR),
    (.POST, [.lit "api", .lit "jobs", .param, .lit "lighthouse-before"], .lighthouseBeforeR),
    (.POST, [.lit "api", .lit "jobs", .param, .lit "lighthouse-after"], .lighthouseAfterR),
    (.POST, [.lit "api", .lit "jobs", .param, .lit "complete"], .completeR),
    (.GET,  [.lit "health"], .healthR) ]

/-- Express dispatch: the first registered route whose pattern matches wins. -/
def matchRoute (m : Method) (path : List String) : Option RouteTag :=
  (routeTable.find? (fun e => e.1 == m && pathMatches e.2.1 path)).map (fun e => e.2.2)

/-- An incoming request: method, path segments, the `X-API-Key` header if sent,
and the JSON body fields the handlers destructure. -/
structure Request where
  method : Method
  path : List String
  apiKey : Option String := none
  url : Option String := none
  email : Option String := none
  scores : Option Scores := none
  netlifyUrl : Option String := none
  notes : Option String := none
deriving DecidableEq, Repr

/-- The JSON responses this server sends, flattened into one record of the
fields that ever occur; absent fields are `none`. -/
structure Response where
  status : Nat := 200
  error : Option String := none
  success : Option Bool := none
  message : Option String := none
  emailSent : Option Bool := none
  jobId : Option String := none
  job : Option Job := none
  jobs : Option (List Job) := none
deriving DecidableEq, Repr

/-- Server configuration and ambient effects: the configured `ADMIN_API_KEY`
(`none` when the environment variable is unset), an oracle for the
host-provided WHATWG `new URL(url)` parser, the uuid the next `createJob`
draws, the current timestamp, and whether the SMTP send succeeds. -/
structure Env where
  adminKey : Option String
  urlValid : String → Bool
  newId : String
  now : String
  emailDelivers : Bool

/-- The `requireAdminAuth` middleware test:
`!ADMIN_API_KEY || apiKey !== ADMIN_API_KEY` (an unset or empty configured key
rejects everything; otherwise the header must equal the key exactly). -/
def adminAuthRejects (adminKey apiKey : Option String) : Bool :=
  !jsTruthyStr adminKey || apiKey != adminKey

/-- Which registered routes carry the `requireAdminAuth` middleware. -/
def isAdminRoute : RouteTag → Bool
  | .pendingR | .allR | .lighthouseBeforeR | .lighthouseAfterR | .completeR => true
  | _ => false

/-- The email-shape test `/^[^\s@]+@[^\s@]+\.[^\s@]+$/` from the create handler:
exactly one `@`; a nonempty local part and domain of non-whitespace, non-`@`
characters; and a dot somewhere strictly inside the domain. -/
def emailAtomChar (c : Char) : Bool :=
  !c.isWhitespace && c != '@'

/-- Split a character list at every occurrence of a separator (the semantics of
`String.split` on a one-character separator, written structurally so it computes). -/
def splitOnAt (sep : Char) : List Char → List (List Char)
  | [] => [[]]
  | c :: cs =>
    let rest := splitOnAt sep cs
    if c == sep then [] :: rest
    else
      match rest with
      | [] => [[c]]
      | r :: rs => (c :: r) :: rs

/-- Decidable form of the email regex above: the whole string is
local@domain with nonempty atom runs and a dot strictly inside the domain. -/
def emailValid (s : String) : Bool :=
  match splitOnAt '@' s.toList with
  | [localPart, domain] =>
    localPart.length > 0 && localPart.all emailAtomChar &&
    domain.all emailAtomChar &&
    (List.range domain.length).any (fun i =>
      decide (1 ≤ i) && decide (i + 2 ≤ domain.length) && (domain.getD i ' ' == '.'))
  | _ => false

/-- Handler of `POST /api/jobs` (public creation). -/
def handleCreateJob (env : Env) (req : Request) (s : Store) : Response × Store :=
  if !jsTruthyStr req.url || !jsTruthyStr req.email then
    ({ status := 400, error := some "URL and email required" }, s)
  else if !env.urlValid (req.url.getD "") then
    ({ status := 400, error := some "Invalid URL" }, s)
  else if !emailValid (req.email.getD "") then
    ({ status := 400, error := some "Invalid email" }, s)
  else
    let r := createJob env.newId env.now (req.url.getD "") (req.email.getD "") s
    ({ status := 200, success := some true,
       message := some "Job submitted! We will optimize your website and email you the results.",
       jobId := some r.1.id }, r.2)

/-- Handler of `GET /api/jobs/:id` (public status lookup). -/
def handleGetJob (id : String) (s : Store) : Response × Store :=
  match getJobById id s with
  | none => ({ status := 404, error := some "Job not found" }, s)
  | some j => ({ status := 200, job := some j }, s)

/-- Handler of `GET /api/jobs/pending`. -/
def handlePending (s : Store) : Response × Store :=
  ({ status := 200, jobs := some (getPendingJobs s) }, s)

/-- Handler of `GET /api/jobs/all`. -/
def handleAllJobs (s : Store) : Response × Store :=
  ({ status := 200, jobs := some (getAllJobs s) }, s)

/-- Handler of `POST /api/jobs/:id/lighthouse-before`: unconditionally sets the
status to processing, then stores the submitted scores. -/
def handleLighthouseBefore (id : String) (req : Request) (s : Store) : Response × Store :=
  ({ status := 200, success := some true },
   saveLighthouseBefore id req.scores (updateJobStatus id "processing" s))

/-- Handler of `POST /api/jobs/:id/lighthouse-after`: stores the submitted scores. -/
def handleLighthouseAfter (id : String) (req : Request) (s : Store) : Response × Store :=
  ({ status := 200, success := some true }, saveLighthouseAfter id req.scores s)

/-- Handler of `POST /api/jobs/:id/complete` (file-backed variant with
server-side email): 400 without a netlifyUrl, 404 for an unknown job, otherwise
complete the job, re-read it, attempt the email, and answer
`{success: true, emailSent, job}` — the email outcome only ever lands in the
`emailSent` field. -/
def handleComplete (env : Env) (id : String) (req : Request) (s : Store) : Response × Store :=
  if !jsTruthyStr req.netlifyUrl then
    ({ status := 400, error := some "netlifyUrl required" }, s)
  else
    match getJobById id s with
    | none => ({ status := 404, error := some "Job not found" }, s)
    | some _ =>
      let s' := completeJob id (req.netlifyUrl.getD "") req.notes env.now s
      ({ status := 200, success := some true, emailSent := some env.emailDelivers,
         job := getJobById id s' }, s')

/-- Full request dispatch: Express picks the first matching registered route,
runs `requireAdminAuth` where attached, then the handler. -/
def dispatch (env : Env) (req : Request) (s : Store) : Response × Store :=
  match matchRoute req.method req.path with
  | none => ({ status := 404 }, s)
  | some tag =>
    if isAdminRoute tag && adminAuthRejects env.adminKey req.apiKey then
      ({ status := 401, error := some "Unauthorized" }, s)
    else
      match tag with
      | .createJobR => handleCreateJob env req s
      | .getJobR => handleGetJob (req.path.getD 2 "") s
      | .pendingR => handlePending s
      | .allR => handleAllJobs s
      | .lighthouseBeforeR => handleLighthouseBefore (req.path.getD 2 "") req s
      | .lighthouseAfterR => handleLighthouseAfter (req.path.getD 2 "") req s
      | .completeR => handleComplete env (req.path.getD 2 "") req s
      | .healthR => ({ status := 200 }, s)

/-- The admin-gated operations as they reach the store, for lifecycle reasoning:
`lighthouse-before` is the composite its route performs. -/
inductive AdminOp where
  | lighthouseBeforeOp : String → Option Scores → AdminOp
  | lighthouseAfterOp : String → Option Scores → AdminOp
  | completeOp : String → String → Option String → String → AdminOp
deriving DecidableEq, Repr

/-- Effect of one admin-gated operation on the store. -/
def applyAdminOp : AdminOp → Store → Store
  | .lighthouseBeforeOp id sc, s => saveLighthouseBefore id sc (updateJobStatus id "processing" s)
  | .lighthouseAfterOp id sc, s => saveLighthouseAfter id sc s
  | .completeOp id u n t, s => completeJob id u n t s

/-- A freshly submitted sample job. -/
def jobSubmitted : Job :=
  { id := "j1", url := "https://example.com", email := "u@example.com",
    status := "submitted", created_at := "t0", completed_at := none,
    lighthouse_before := none, lighthouse_after := none,
    netlify_url := none, notes := none }

/-- A completed sample job with a distinct id. -/
def jobDone : Job :=
  { id := "j2", url := "https://two.example.com", email := "w@example.com",
    status := "completed", created_at := "t0", completed_at := some "t2",
    lighthouse_before := none, lighthouse_after := none,
    netlify_url := some "https://two.netlify.app", notes := none }

/-- A score record with performance 50. -/
def scores50 : Scores := { performance := some 50, accessibility := none, bestPractices := none, seo := none }

/-- A score record with performance 90. -/
def scores90 : Scores := { performance := some 90, accessibility := none, bestPractices := none, seo := none }

/-- Helper: `find?` commutes with a `map` whose function preserves the predicate. -/
theorem find_map_pred (g : Job → Job) (p : Job → Bool) (hp : ∀ j, p (g j) = p j)
    (s : List Job) : (s.map g).find? p = (s.find? p).map g := by
  induction s with
  | nil => rfl
  | cons a t ih =>
    simp only [List.map_cons]
    cases hpa : p a with
    | true =>
      rw [List.find?_cons_of_pos _ (by rw [hp]; exact hpa), List.find?_cons_of_pos _ hpa]
      rfl
    | false =>
      rw [List.find?_cons_of_neg _ (by simp [hp, hpa]), List.find?_cons_of_neg _ (by simp [hpa])]
      exact ih

/-- Helper: a keyed update is invisible to lookups except through the updated record. -/
theorem getJobById_memUpdate (id q : String) (f : Job → Job) (hf : ∀ j, (f j).id = j.id)
    (s : Store) :
    getJobById q (memUpdate id f s)
      = (getJobById q s).map (fun j => if j.id == id then f j else j) := by
  unfold getJobById memUpdate
  exact find_map_pred _ _ (fun j => by split <;> simp [hf]) s

/-- Helper: how `updateJobStatus` shows up through `getJobById`. -/
theorem getJobById_updateJobStatus (id st q : String) (s : Store) :
    getJobById q (updateJobStatus id st s)
      = (getJobById q s).map (fun j => if j.id == id then { j with status := st } else j) :=
  getJobById_memUpdate id q (fun j => { j with status := st }) (fun _ => rfl) s

/-- Helper: how `saveLighthouseBefore` shows up through `getJobById`. -/
theorem getJobById_saveLighthouseBefore (id : String) (sc : Option Scores) (q : String)
    (s : Store) :
    getJobById q (saveLighthouseBefore id sc s)
      = (getJobById q s).map (fun j => if j.id == id then { j with lighthouse_before := sc } else j) :=
  getJobById_memUpdate id q (fun j => { j with lighthouse_before := sc }) (fun _ => rfl) s

/-- Helper: how `saveLighthouseAfter` shows up through `getJobById`. -/
theorem getJobById_saveLighthouseAfter (id : String) (sc : Option Scores) (q : String)
    (s : Store) :
    getJobById q (saveLighthouseAfter id sc s)
      = (getJobById q s).map (fun j => if j.id == id then { j with lighthouse_after := sc } else j) :=
  getJobById_memUpdate id q (fun j => { j with lighthouse_after := sc }) (fun _ => rfl) s

/-- Helper: how `completeJob` shows up through `getJobById`. -/
theorem getJobById_completeJob (id u : String) (n : Option String) (t q : String) (s : Store) :
    getJobById q (completeJob id u n t s)
      = (getJobById q s).map (fun j => if j.id == id then
          { j with status := "completed", completed_at := some t,
                   netlify_url := some u, notes := n } else j) :=
  getJobById_memUpdate id q
    (fun j => { j with status := "completed", completed_at := some t,
                       netlify_url := some u, notes := n }) (fun _ => rfl) s

/-- Helper: a keyed update whose id is absent from the store is the identity. -/
theorem memUpdate_eq_self (id : String) (f : Job → Job) (s : Store)
    (h : ∀ j ∈ s, j.id ≠ id) : memUpdate id f s = s := by
  induction s with
  | cons a t ih =>
    have ha : (a.id == id) = false := by simp [h a (List.mem_cons_self a t)]
    simp only [memUpdate, List.map_cons, ha, Bool.false_eq_true, if_false, List.cons.injEq,
      true_and]
    exact ih (fun j hj => h j (List.mem_cons_of_mem a hj))
  | nil => rfl

/-- Helper: `findIndex` yields −1 when no row satisfies the test. -/
theorem findRowIdx_eq_none (p : Row → Bool) (sheet : Sheet) (h : ∀ r ∈ sheet, p r = false) :
    findRowIdx p sheet = none := by
  induction sheet with
  | nil => rfl
  | cons a t ih =>
    simp [findRowIdx, h a (List.mem_cons_self a t),
      ih (fun r hr => h r (List.mem_cons_of_mem a hr))]

/-- Helper: `find?` skips a prefix on which the predicate is false everywhere. -/
theorem find_append_of_none (p : Job → Bool) (l₁ l₂ : List Job)
    (h : ∀ x ∈ l₁, p x = false) : (l₁ ++ l₂).find? p = l₂.find? p := by
  induction l₁ with
  | nil => rfl
  | cons a t ih =>
    rw [List.cons_append, List.find?_cons_of_neg _ (by simp [h a (List.mem_cons_self a t)])]
    exact ih (fun x hx => h x (List.mem_cons_of_mem a hx))

/-- C1: after `lighthouse-before` then `complete`, the stored job should have
status=completed, completed_at set, netlify_url equal to the submitted value and
lighthouse_before preserved — in every backend.  The file/in-memory backend does
exactly that (first conjunct), but the spreadsheet backend's completion PUT writes
its six values [completed, timestamp, null, null, netlifyUrl, notes] into the
seven-column range D:J, so the timestamp overwrites created_at (column E), the
completed_at column F is never written, the netlify URL lands in the
lighthouse_after column H, the notes land in the netlify_url column I — and the
subsequent read-back even throws inside JSON.parse and yields null. -/
theorem c1_sheets_complete_misaligned :
    (let s0 := (createJob "j1" "t0" "https://example.com" "u@example.com" []).2
     let s1 := saveLighthouseBefore "j1" (some scores50) (updateJobStatus "j1" "processing" s0)
     let s2 := completeJob "j1" "https://site.netlify.app" (some "faster images") "t2" s1
     getJobById "j1" s2 = some
       { id := "j1", url := "https://example.com", email := "u@example.com",
         status := "completed", created_at := "t0", completed_at := some "t2",
         lighthouse_before := some scores50, lighthouse_after := none,
         netlify_url := some "https://site.netlify.app", notes := some "faster images" }) ∧
    (let sh0 := (sheetCreateJob "j1" "t0" "https://example.com" "u@example.com" []).2
     let sh1 := sheetSaveLighthouseBefore "j1" scores50 (sheetUpdateJobStatus "j1" "processing" sh0)
     let sh2 := sheetCompleteJob "j1" "https://site.netlify.app" (some "faster images") "t2" sh1
     let row := sh2.getD 0 []
     row.getD 3 .empty = .str "completed" ∧
     row.getD 5 .empty = .empty ∧
     row.getD 8 .empty = .str "faster images" ∧
     row.getD 7 .empty = .str "https://site.netlify.app" ∧
     row.getD 4 .empty = .str "t2" ∧
     row.getD 6 .empty = .json scores50 ∧
     sheetGetJobById "j1" sh2 [] = none) := by decide

/-- C2 counterexample: the claim says no operation ever moves a completed job's
status backward, but the `lighthouse-before` route unconditionally sets the
status to processing — applied to a completed job, the stored status afterwards
is "processing". -/
theorem c2_backward_transition_counterexample :
    jobDone.status = "completed" ∧
    (getJobById "j2" (applyAdminOp (.lighthouseBeforeOp "j2" (some scores50)) [jobDone])).map
      Job.status = some "processing" ∧
    some "processing" ≠ some "completed" := by decide

/-- C2 amended: among the admin-gated operations, `lighthouse-after` never
changes any job's status and `complete` only ever sets the target job's status
to completed (all other jobs unchanged) — these move the status only forward;
but `lighthouse-before` unconditionally sets the target job's status to
"processing" (all other jobs unchanged), which moves even a completed job
backward. -/
theorem c2_status_transitions (s : Store) (q : String) :
    (∀ id sc, (getJobById q (applyAdminOp (.lighthouseAfterOp id sc) s)).map Job.status
        = (getJobById q s).map Job.status) ∧
    (∀ id u n t, (getJobById q (applyAdminOp (.completeOp id u n t) s)).map Job.status
        = (getJobById q s).map (fun j => if j.id == id then "completed" else j.status)) ∧
    (∀ id sc, (getJobById q (applyAdminOp (.lighthouseBeforeOp id sc) s)).map Job.status
        = (getJobById q s).map (fun j => if j.id == id then "processing" else j.status)) := by
  refine ⟨fun id sc => ?_, fun id u n t => ?_, fun id sc => ?_⟩
  · simp only [applyAdminOp]
    rw [getJobById_saveLighthouseAfter]
    cases getJobById q s with
    | none => rfl
    | some j =>
      simp only [Option.map_some']
      split <;> rfl
  · simp only [applyAdminOp]
    rw [getJobById_completeJob]
    cases getJobById q s with
    | none => rfl
    | some j =>
      simp only [Option.map_some']
      split <;> rfl
  · simp only [applyAdminOp]
    rw [getJobById_saveLighthouseBefore, getJobById_updateJobStatus]
    cases getJobById q s with
    | none => rfl
    | some j =>
      simp only [Option.map_some']
      by_cases h : (j.id == id) = true
      · simp [h]
      · simp [h]

/-- C3 counterexample: the claim says completed_at and netlify_url are written
exactly once and no later operation (including a second `complete`) changes
them; but a second `complete` call with a different URL and timestamp
overwrites both. -/
theorem c3_second_complete_overwrites :
    (let s1 := completeJob "j1" "https://a.netlify.app" (some "n1") "t1" [jobSubmitted]
     let s2 := completeJob "j1" "https://b.netlify.app" (some "n2") "t2" s1
     (getJobById "j1" s1).map Job.netlify_url = some (some "https://a.netlify.app") ∧
     (getJobById "j1" s1).map Job.completed_at = some (some "t1") ∧
     (getJobById "j1" s2).map Job.netlify_url = some (some "https://b.netlify.app") ∧
     (getJobById "j1" s2).map Job.completed_at = some (some "t2")) := by decide

/-- C3 amended: completed_at and netlify_url are written only by the completion
transition — status updates and the two lighthouse writes never change them for
any job — but every `complete` call, including a repeated one, overwrites both
with its own timestamp and URL (together with status, notes). -/
theorem c3_completion_fields (s : Store) (q : String) :
    (∀ id st, (getJobById q (updateJobStatus id st s)).map
        (fun j => (j.completed_at, j.netlify_url))
      = (getJobById q s).map (fun j => (j.completed_at, j.netlify_url))) ∧
    (∀ id sc, (getJobById q (saveLighthouseBefore id sc s)).map
        (fun j => (j.completed_at, j.netlify_url))
      = (getJobById q s).map (fun j => (j.completed_at, j.netlify_url))) ∧
    (∀ id sc, (getJobById q (saveLighthouseAfter id sc s)).map
        (fun j => (j.completed_at, j.netlify_url))
      = (getJobById q s).map (fun j => (j.completed_at, j.netlify_url))) ∧
    (∀ id u n t, getJobById q (completeJob id u n t s)
      = (getJobById q s).map (fun j => if j.id == id then
          { j with status := "completed", completed_at := some t,
                   netlify_url := some u, notes := n } else j)) := by
  refine ⟨fun id st => ?_, fun id sc => ?_, fun id sc => ?_, fun id u n t => ?_⟩
  · rw [getJobById_updateJobStatus]
    cases getJobById q s with
    | none => rfl
    | some j => simp only [Option.map_some']; split <;> rfl
  · rw [getJobById_saveLighthouseBefore]
    cases getJobById q s with
    | none => rfl
    | some j => simp only [Option.map_some']; split <;> rfl
  · rw [getJobById_saveLighthouseAfter]
    cases getJobById q s with
    | none => rfl
    | some j => simp only [Option.map_some']; split <;> rfl
  · rw [getJobById_completeJob]

/-- C4: the claim says the pending listing — the `getPendingJobs` store
operation, served by `GET /api/jobs/pending` under the admin header — returns
exactly the submitted jobs.  The store operation does filter on
status=submitted (third conjunct), but the route is registered after
`GET /api/jobs/:id`, whose `:id` pattern also matches the path segment
"pending"; a correctly authenticated `GET /api/jobs/pending` is therefore
dispatched to the public status-lookup handler and answers
404 "Job not found" instead of the pending list. -/
theorem c4_pending_route_shadowed :
    (let env : Env := { adminKey := some "secret", urlValid := fun _ => true,
                        newId := "n1", now := "t9", emailDelivers := true }
     let req : Request := { method := .GET, path := ["api", "jobs", "pending"],
                            apiKey := some "secret" }
     matchRoute .GET ["api", "jobs", "pending"] = some .getJobR ∧
     dispatch env req [jobSubmitted, jobDone]
       = ({ status := 404, error := some "Job not found" }, [jobSubmitted, jobDone]) ∧
     getPendingJobs [jobSubmitted, jobDone] = [jobSubmitted]) := by decide

/-- C5: the claim says every mutating/listing endpoint except creation and
status lookup answers 401 exactly when the X-API-Key header is absent or wrong.
The `requireAdminAuth` check itself rejects exactly then (first conjunct), and
the mutating POST routes enforce it (fourth conjunct); but the two listing
routes are registered after `GET /api/jobs/:id` and are shadowed by it, so
`GET /api/jobs/all` with no key at all is served by the public status-lookup
handler and answers 404, not 401. -/
theorem c5_listing_routes_skip_auth :
    (let env : Env := { adminKey := some "secret", urlValid := fun _ => true,
                        newId := "n1", now := "t9", emailDelivers := true }
     adminAuthRejects (some "secret") none = true ∧
     matchRoute .GET ["api", "jobs", "all"] = some .getJobR ∧
     dispatch env { method := .GET, path := ["api", "jobs", "all"] } []
       = ({ status := 404, error := some "Job not found" }, []) ∧
     dispatch env { method := .POST, path := ["api", "jobs", "j1", "lighthouse-after"] } []
       = ({ status := 401, error := some "Unauthorized" }, []) ∧
     (404 : Nat) ≠ 401) := by decide

/-- C6: a failed completion-email send does not roll back or fail the
completion — for any complete call on an existing job with a netlifyUrl
supplied, when the email send fails the handler still answers 200 with
success=true, the failure shows up only as emailSent=false, and the stored job
is completed. -/
theorem c6_email_failure_no_rollback (env : Env) (id : String) (req : Request) (s : Store)
    (j : Job) (hurl : jsTruthyStr req.netlifyUrl = true) (hjob : getJobById id s = some j)
    (hmail : env.emailDelivers = false) :
    (handleComplete env id req s).1.status = 200 ∧
    (handleComplete env id req s).1.success = some true ∧
    (handleComplete env id req s).1.emailSent = some false ∧
    (getJobById id (handleComplete env id req s).2).map Job.status = some "completed" := by
  have hfind : s.find? (fun k => k.id == id) = some j := hjob
  have hjid : j.id = id := by simpa using List.find?_some hfind
  simp only [handleComplete, hurl, Bool.not_true, Bool.false_eq_true, if_false, hjob, hmail]
  refine ⟨trivial, trivial, trivial, ?_⟩
  rw [getJobById_completeJob, hjob]
  simp [hjid]

/-- C6 witness at a concrete completion with a failing email send. -/
theorem c6_email_failure_no_rollback_witness :
    (jsTruthyStr (some "https://a.netlify.app") = true ∧
     getJobById "j1" [jobSubmitted] = some jobSubmitted ∧
     (false : Bool) = false) ∧
    (let env : Env := { adminKey := some "secret", urlValid := fun _ => true,
                        newId := "n1", now := "t9", emailDelivers := false }
     let req : Request := { method := .POST, path := ["api", "jobs", "j1", "complete"],
                            apiKey := some "secret", netlifyUrl := some "https://a.netlify.app" }
     (handleComplete env "j1" req [jobSubmitted]).1.status = 200 ∧
     (handleComplete env "j1" req [jobSubmitted]).1.success = some true ∧
     (handleComplete env "j1" req [jobSubmitted]).1.emailSent = some false ∧
     (getJobById "j1" (handleComplete env "j1" req [jobSubmitted]).2).map Job.status
       = some "completed") :=
  ⟨⟨by decide, by decide, rfl⟩,
   c6_email_failure_no_rollback
     { adminKey := some "secret", urlValid := fun _ => true,
       newId := "n1", now := "t9", emailDelivers := false }
     "j1"
     { method := .POST, path := ["api", "jobs", "j1", "complete"],
       apiKey := some "secret", netlifyUrl := some "https://a.netlify.app" }
     [jobSubmitted] jobSubmitted (by decide) (by decide) rfl⟩

/-- C7 counterexample: the claim says the delta is computed whenever both
performance scores are present; but the code guards with JS truthiness, so a
present score of 0 suppresses the delta: for before.performance=0 and
after.performance=90 the code yields no delta instead of +90. -/
theorem c7_zero_score_counterexample :
    improvement
      (some { performance := some 0, accessibility := none, bestPractices := none, seo := none })
      (some scores90) = none ∧
    (none : Option Int) ≠ some (90 - 0) := by decide

/-- C7 amended: the delta equals after.performance − before.performance (the
rounding is the identity on integer scores) whenever both scores are present
and nonzero; it is absent when either record or either score is absent — and
also when either score is 0, because the JS truthiness guard treats 0 as
missing.  For before=50, after=90 the delta is +40. -/
theorem c7_improvement_delta (b a : Scores) (bp ap : Int)
    (hb : b.performance = some bp) (ha : a.performance = some ap)
    (hbz : bp ≠ 0) (haz : ap ≠ 0) :
    improvement (some b) (some a) = some (ap - bp) ∧
    improvement none (some a) = none ∧
    improvement (some b) none = none ∧
    improvement (some { b with performance := some 0 }) (some a) = none ∧
    improvement (some { b with performance := none }) (some a) = none ∧
    improvement (some scores50) (some scores90) = some 40 := by
  refine ⟨?_, ?_, ?_, ?_, ?_, by decide⟩
  · simp [improvement, jsTruthyNum, hb, ha, hbz, haz]
  · simp [improvement, jsTruthyNum]
  · simp [improvement, jsTruthyNum]
  · simp [improvement, jsTruthyNum]
  · simp [improvement, jsTruthyNum]

/-- C7 witness at before=50, after=90. -/
theorem c7_improvement_delta_witness :
    (scores50.performance = some 50 ∧ scores90.performance = some 90 ∧
     (50 : Int) ≠ 0 ∧ (90 : Int) ≠ 0) ∧
    improvement (some scores50) (some scores90) = some (90 - 50) :=
  ⟨⟨rfl, rfl, by decide, by decide⟩,
   (c7_improvement_delta scores50 scores90 50 90 rfl rfl (by decide) (by decide)).1⟩

/-- C8: two successive `lighthouse-after` calls on an existing job are
last-write-wins — the stored lighthouse_after afterwards is exactly the second
call's scores, with no merging. -/
theorem c8_lighthouse_after_last_write_wins (s : Store) (id : String) (sc1 sc2 : Scores)
    (j : Job) (hne : sc1 ≠ sc2) (hj : getJobById id s = some j) :
    (getJobById id (saveLighthouseAfter id (some sc2)
        (saveLighthouseAfter id (some sc1) s))).map Job.lighthouse_after
      = some (some sc2) := by
  have hfind : s.find? (fun k => k.id == id) = some j := hj
  have hjid : j.id = id := by simpa using List.find?_some hfind
  rw [getJobById_saveLighthouseAfter, getJobById_saveLighthouseAfter, hj]
  simp [hjid]

/-- C8 witness: overwrite performance 50 with performance 90 on a stored job. -/
theorem c8_lighthouse_after_last_write_wins_witness :
    (scores50 ≠ scores90 ∧ getJobById "j1" [jobSubmitted] = some jobSubmitted) ∧
    (getJobById "j1" (saveLighthouseAfter "j1" (some scores90)
        (saveLighthouseAfter "j1" (some scores50) [jobSubmitted]))).map Job.lighthouse_after
      = some (some scores90) :=
  ⟨⟨by decide, by decide⟩,
   c8_lighthouse_after_last_write_wins [jobSubmitted] "j1" scores50 scores90 jobSubmitted
     (by decide) (by decide)⟩

/-- C9: creating a job under a fresh id with a well-formed email yields — and
persists — a record with exactly that url and email, status=submitted,
created_at set to the creation time, and every optional field null; the rest of
the store is untouched (the new record is appended). -/
theorem c9_create_fresh_job (newId now url email : String) (s : Store)
    (hfresh : ∀ j ∈ s, j.id ≠ newId) (hemail : emailValid email = true) :
    (createJob newId now url email s).1 =
      { id := newId, url := url, email := email, status := "submitted", created_at := now,
        completed_at := none, lighthouse_before := none, lighthouse_after := none,
        netlify_url := none, notes := none } ∧
    (createJob newId now url email s).2 = s ++ [(createJob newId now url email s).1] ∧
    getJobById newId (createJob newId now url email s).2
      = some (createJob newId now url email s).1 := by
  have hany : (s.any fun k => k.id == newId) = false := by
    rw [List.any_eq_false]
    intro x hx
    simp [hfresh x hx]
  refine ⟨rfl, ?_, ?_⟩
  · simp only [createJob, mapSet, hany, Bool.false_eq_true, if_false]
  · simp only [createJob, mapSet, hany, Bool.false_eq_true, if_false, getJobById]
    rw [find_append_of_none _ _ _ (fun x hx => by simp [hfresh x hx])]
    rw [List.find?_cons_of_pos _ (by simp)]

/-- C9 witness: create a fresh job next to an existing one. -/
theorem c9_create_fresh_job_witness :
    ((∀ j ∈ ([jobSubmitted] : Store), j.id ≠ "n1") ∧ emailValid "a@b.cd" = true) ∧
    ((createJob "n1" "t9" "https://x.example.com" "a@b.cd" [jobSubmitted]).1 =
      { id := "n1", url := "https://x.example.com", email := "a@b.cd", status := "submitted",
        created_at := "t9", completed_at := none, lighthouse_before := none,
        lighthouse_after := none, netlify_url := none, notes := none } ∧
     (createJob "n1" "t9" "https://x.example.com" "a@b.cd" [jobSubmitted]).2 =
       [jobSubmitted] ++ [(createJob "n1" "t9" "https://x.example.com" "a@b.cd" [jobSubmitted]).1] ∧
     getJobById "n1" (createJob "n1" "t9" "https://x.example.com" "a@b.cd" [jobSubmitted]).2
       = some (createJob "n1" "t9" "https://x.example.com" "a@b.cd" [jobSubmitted]).1) :=
  ⟨⟨by decide, by decide⟩,
   c9_create_fresh_job "n1" "t9" "https://x.example.com" "a@b.cd" [jobSubmitted]
     (by decide) (by decide)⟩

/-- C10: every mutating store operation applied to an id absent from the store
is a silent no-op that leaves the whole store unchanged — in the file/in-memory
backend (the `if (job)` guard) and in the spreadsheet backend (the
`findIndex === -1` early return). -/
theorem c10_unknown_id_noop (s : Store) (sheet : Sheet) (id st u t : String)
    (n : Option String) (sc : Option Scores) (sc2 : Scores)
    (hmem : ∀ j ∈ s, j.id ≠ id) (hsheet : ∀ r ∈ sheet, (r.getD 0 .empty).text ≠ id) :
    updateJobStatus id st s = s ∧
    saveLighthouseBefore id sc s = s ∧
    saveLighthouseAfter id sc s = s ∧
    completeJob id u n t s = s ∧
    sheetUpdateJobStatus id st sheet = sheet ∧
    sheetSaveLighthouseBefore id sc2 sheet = sheet ∧
    sheetSaveLighthouseAfter id sc2 sheet = sheet ∧
    sheetCompleteJob id u n t sheet = sheet := by
  have hnone : sheetFindIdx id sheet = none :=
    findRowIdx_eq_none _ _ (fun r hr => by simpa using hsheet r hr)
  refine ⟨memUpdate_eq_self _ _ _ hmem, memUpdate_eq_self _ _ _ hmem,
    memUpdate_eq_self _ _ _ hmem, memUpdate_eq_self _ _ _ hmem, ?_, ?_, ?_, ?_⟩
  all_goals
    simp [sheetUpdateJobStatus, sheetSaveLighthouseBefore, sheetSaveLighthouseAfter,
      sheetCompleteJob, sheetModifyRow, hnone]

/-- C10 witness: mutate an unknown id against a one-job store and a one-row sheet. -/
theorem c10_unknown_id_noop_witness :
    ((∀ j ∈ ([jobSubmitted] : Store), j.id ≠ "zzz") ∧
     (∀ r ∈ ([[Cell.str "j1"]] : Sheet), (r.getD 0 .empty).text ≠ "zzz")) ∧
    (updateJobStatus "zzz" "processing" [jobSubmitted] = [jobSubmitted] ∧
     saveLighthouseBefore "zzz" (some scores50) [jobSubmitted] = [jobSubmitted] ∧
     saveLighthouseAfter "zzz" (some scores50) [jobSubmitted] = [jobSubmitted] ∧
     completeJob "zzz" "https://a.netlify.app" (some "n") "t9" [jobSubmitted] = [jobSubmitted] ∧
     sheetUpdateJobStatus "zzz" "processing" [[Cell.str "j1"]] = [[Cell.str "j1"]] ∧
     sheetSaveLighthouseBefore "zzz" scores50 [[Cell.str "j1"]] = [[Cell.str "j1"]] ∧
     sheetSaveLighthouseAfter "zzz" scores50 [[Cell.str "j1"]] = [[Cell.str "j1"]] ∧
     sheetCompleteJob "zzz" "https://a.netlify.app" (some "n") "t9" [[Cell.str "j1"]]
       = [[Cell.str "j1"]]) :=
  ⟨⟨by decide, by decide⟩,
   c10_unknown_id_noop [jobSubmitted] [[Cell.str "j1"]] "zzz" "processing"
     "https://a.netlify.app" "t9" (some "n") (some scores50) scores50
     (by decide) (by decide)⟩

end WebsiteOptimizer
